import Mathlib

/-!
Verification of the Ghost AI assistant (files `ghost.py` and `ghost_web.py`).

Shallow embedding: the two external capabilities — the Claude completion call
and the chromadb similarity search — are modelled as function parameters
(`completion` returns `Option String`, `none` standing for a raised exception;
`rank` stands for chromadb's relevance ranking of the stored documents).
The wall clock is passed in explicitly (`tsv` for `datetime.now().timestamp()`,
`iso` for `datetime.now().isoformat()`).  Python strings are Lean `String`s and
Python slicing `s[:n]` / `l[-n:]` is modelled character-wise.
-/

namespace Ghost

/-- A chat message, as the dicts `{"role": ..., "content": ...}` used in
`self.session` / `self.sessions[session_id]`. -/
structure Message where
  role : String
  content : String
deriving DecidableEq

instance : Inhabited Message := ⟨⟨"", ""⟩⟩

/-- A document of the `conversations` chroma collection together with its
metadata.  `ghost.py` stores `preview = user_msg[:100]` and `ghost_web.py`
stores `user_message = user_msg[:500]`; the `preview` field holds that
per-variant metadata entry. -/
structure ConvRecord where
  id : String
  content : String
  timestamp : String
  rating : String
  preview : String
deriving DecidableEq

/-- A document of the `knowledge` chroma collection (an insight). -/
structure Insight where
  id : String
  content : String
  category : String
  timestamp : String
deriving DecidableEq

/-- The dict returned by `recall` / `search_memory` for one hit. -/
structure MemHit where
  content : String
  timestamp : String
  rating : String
deriving DecidableEq

/-- Python `s[:n]` (slice of the first `n` characters). -/
def pyTake (s : String) (n : Nat) : String := ⟨s.data.take n⟩

/-- Python `l[-n:]` (the last `n` elements). -/
def pyLastSlice (l : List Message) (n : Nat) : List Message := l.drop (l.length - n)

/-- Python `str(rating) if rating else "unrated"` (note `0` is falsy). -/
def ratingStr : Option Nat → String
  | none => "unrated"
  | some n => if n = 0 then "unrated" else toString n

/-- `GhostMemory.remember_conversation` (ghost.py lines 41-59): builds the
record added to the `conversations` collection.  `tsv` is the value of
`datetime.datetime.now().timestamp()` used for the id, `iso` the value of
`datetime.datetime.now().isoformat()` stored in the metadata. -/
def rememberConversation (tsv iso : String) (user_msg ghost_msg : String)
    (rating : Option Nat) : ConvRecord :=
  { id := "mem_" ++ tsv
    content := "User: " ++ user_msg ++ "\n\nGhost: " ++ ghost_msg
    timestamp := iso
    rating := ratingStr rating
    preview := pyTake user_msg 100 }

/-- `GhostMemory.learn` (ghost.py lines 82-93): the record added to the
`knowledge` collection. -/
def learn (tsv iso : String) (insight : String) (category : String) : Insight :=
  { id := "learn_" ++ tsv
    content := insight
    category := category
    timestamp := iso }

/-- `GhostMemory.add_conversation` (ghost_web.py lines 43-61). -/
def addConversation (tsv iso : String) (user_msg ai_msg : String)
    (rating : Option Nat) : ConvRecord :=
  { id := "conv_" ++ tsv
    content := "User: " ++ user_msg ++ "\nGhost: " ++ ai_msg
    timestamp := iso
    rating := ratingStr rating
    preview := pyTake user_msg 500 }

/-- `GhostMemory.add_knowledge` (ghost_web.py lines 84-95). -/
def addKnowledge (tsv iso : String) (knowledge : String) (category : String) : Insight :=
  { id := "know_" ++ tsv
    content := knowledge
    category := category
    timestamp := iso }

/-- The chroma `conversations.query(query_texts=[q], n_results=k)` call:
the external engine ranks the stored documents by similarity to the query
(the ranking itself is the external parameter `rank`) and returns the top
`k`. -/
def chromaQuery (rank : List ConvRecord → String → List ConvRecord)
    (store : List ConvRecord) (q : String) (k : Nat) : List ConvRecord :=
  (rank store q).take k

/-- `GhostMemory.recall` (ghost.py lines 61-80): empty store short-circuits
to `[]`; otherwise query with `n_results = min n (count)` and collect
`{content, timestamp, rating}` dicts. -/
def «recall» (rank : List ConvRecord → String → List ConvRecord)
    (store : List ConvRecord) (query : String) (n_results : Nat) : List MemHit :=
  if store.length = 0 then []
  else
    (chromaQuery rank store query (min n_results store.length)).map
      (fun rec => { content := rec.content, timestamp := rec.timestamp, rating := rec.rating })

/-- `GhostMemory.search_memory` (ghost_web.py lines 63-82); same algorithm as
`recall`. -/
def searchMemory (rank : List ConvRecord → String → List ConvRecord)
    (store : List ConvRecord) (query : String) (n_results : Nat) : List MemHit :=
  if store.length = 0 then []
  else
    (chromaQuery rank store query (min n_results store.length)).map
      (fun rec => { content := rec.content, timestamp := rec.timestamp, rating := rec.rating })

/-- The profile dict of ghost.py (`UserProfile.load`, lines 103-117). -/
structure Profile where
  name : String
  preferences : List (String × String)
  interests : List String
  goals : List String
  communication_style : String
  total_chats : Nat
  created : String
deriving DecidableEq

/-- `UserProfile.add_chat` (ghost.py lines 124-127), the mutation part
(the synchronous `save()` is modelled at the call site by copying the
profile to the `disk` field of the state). -/
def addChat (p : Profile) : Profile :=
  { p with total_chats := p.total_chats + 1 }

/-- The in-memory state of a ghost.py `Ghost` instance, together with the
on-disk profile copy (`disk` is what `UserProfile.save` last wrote). -/
structure GhostState where
  session : List Message
  profile : Profile
  disk : Option Profile
  memConversations : List ConvRecord
  memKnowledge : List Insight
deriving DecidableEq

/-- The static persona text of ghost.py `talk` (lines 173-181). -/
def systemPromptCLI : String :=
  "You are Ghost, a self-improving AI assistant. \n\nYour unique capabilities:\n- You remember EVERYTHING from past conversations\n- You learn the user preferences and adapt to them\n- You get better with every interaction\n- You have access to the user profile and conversation history\n\nBe helpful, adaptive, and personal. Use the context provided to give increasingly tailored responses."

/-- One entry of the `RELEVANT MEMORIES` block of `Ghost._build_context`
(ghost.py line 164): `f"\n[Memory {i}] [Rating: {rating}]\n{mem['content'][:400]}"`. -/
def memEntry (i : Nat) (mem : MemHit) : String :=
  "\n[Memory " ++ toString i ++ "] [Rating: " ++ mem.rating ++ "]\n" ++ pyTake mem.content 400

/-- `Ghost._build_context` (ghost.py lines 150-166).  `pj` models
`json.dumps(self.profile.profile, indent=2)`, an external serialization. -/
def buildContext (pj : Profile → String)
    (rank : List ConvRecord → String → List ConvRecord)
    (store : List ConvRecord) (profile : Profile) (user_msg : String) : String :=
  let memories := «recall» rank store user_msg 3
  let context := ["USER PROFILE:\n" ++ pj profile]
  let context :=
    if memories.isEmpty then context
    else context ++ ["\nRELEVANT MEMORIES:"]
      ++ memories.enum.map (fun p => memEntry (p.1 + 1) p.2)
  String.intercalate "\n" context

/-- `Ghost.talk` (ghost.py lines 168-209).  `completion` models
`self.client.messages.create` (given the system prompt and the message list,
returns the completion text, or `none` when the API call raises).  Returns
the reply (`none` = the exception propagates) and the state after the call. -/
def talk (completion : String → List Message → Option String)
    (pj : Profile → String)
    (rank : List ConvRecord → String → List ConvRecord)
    (st : GhostState) (user_message : String) : Option String × GhostState :=
  let profile1 := addChat st.profile
  let st1 := { st with profile := profile1, disk := some profile1 }
  let system := systemPromptCLI ++ "\n\nCONTEXT:\n"
    ++ buildContext pj rank st.memConversations profile1 user_message
  let messages := st.session ++ [⟨"user", user_message⟩]
  match completion system messages with
  | none => (none, st1)
  | some ghost_response =>
    let session1 := st.session ++ [⟨"user", user_message⟩, ⟨"assistant", ghost_response⟩]
    let session2 := if session1.length > 20 then pyLastSlice session1 20 else session1
    (some ghost_response, { st1 with session := session2 })

/-- `Ghost.rate` (ghost.py lines 211-229).  Returns the message shown to the
user and the state after the call. -/
def rate (tsv iso : String) (st : GhostState) (rating : Nat) : String × GhostState :=
  if 2 ≤ st.session.length then
    let user_msg := (st.session.getD (st.session.length - 2) default).content
    let ghost_msg := (st.session.getD (st.session.length - 1) default).content
    let st1 := { st with memConversations :=
      st.memConversations ++ [rememberConversation tsv iso user_msg ghost_msg (some rating)] }
    if 4 ≤ rating then
      let st2 := { st1 with memKnowledge := st1.memKnowledge
        ++ [learn tsv iso ("User appreciated: " ++ pyTake ghost_msg 300) "good_response"] }
      -- the source prefixes the messages with a star emoji (mojibake in the file)
      ("Rated " ++ toString rating ++ "/5 - I will remember what worked!", st2)
    else
      ("Rated " ++ toString rating ++ "/5 - I will learn from this.", st1)
  else
    ("No response to rate yet.", st)

/-- `Ghost.reset_session` (ghost.py lines 231-234). -/
def resetSession (st : GhostState) : String × GhostState :=
  ("Session cleared. My long-term memory remains intact.", { st with session := [] })

/-! ### The web variant (`ghost_web.py`) -/

/-- The profile dict of ghost_web.py (`UserProfile.load_profile`, lines 105-119). -/
structure ProfileW where
  name : String
  preferences : List (String × String)
  communication_style : String
  expertise_areas : List String
  goals : List String
  total_chats : Nat
  created_at : String
deriving DecidableEq

/-- `UserProfile.update_interaction_count` (ghost_web.py lines 126-129), the
mutation part. -/
def updateInteractionCount (p : ProfileW) : ProfileW :=
  { p with total_chats := p.total_chats + 1 }

/-- The in-memory state of the ghost_web.py `Ghost` instance.  `sessions`
models the `self.sessions` dict as an association list. -/
structure WebState where
  sessions : List (String × List Message)
  profile : ProfileW
  disk : Option ProfileW
  memConversations : List ConvRecord
  memKnowledge : List Insight
deriving DecidableEq

/-- Python dict membership and lookup `sessions.get(sid)` on the
association-list model of `self.sessions`. -/
def dictGet : List (String × List Message) → String → Option (List Message)
  | [], _ => none
  | (k, v) :: rest, sid => if k = sid then some v else dictGet rest sid

/-- Python dict assignment `sessions[sid] = w`: replace the existing binding
or add a new one. -/
def setSession : List (String × List Message) → String → List Message →
    List (String × List Message)
  | [], sid, w => [(sid, w)]
  | (k, v) :: rest, sid, w =>
    if k = sid then (sid, w) :: rest else (k, v) :: setSession rest sid w

/-- `Ghost.get_session` (ghost_web.py lines 173-176): inserts an empty window
when the id is unknown, then returns the window.  The first component is the
state of the `sessions` registry after the call. -/
def getSession (sessions : List (String × List Message)) (session_id : String) :
    List (String × List Message) × List Message :=
  match dictGet sessions session_id with
  | some w => (sessions, w)
  | none => (sessions ++ [(session_id, [])], [])

/-- The window currently associated with a session id (empty when the id has
never been seen; `get_session` would return exactly this window). -/
def windowOf (st : WebState) (session_id : String) : List Message :=
  (dictGet st.sessions session_id).getD []

/-- One entry of the memory block of ghost_web.py `_build_context` (line
169): `f"\n{i}. [{mem['timestamp']}] {mem['content'][:300]}..."`. -/
def webEntry (i : Nat) (mem : MemHit) : String :=
  "\n" ++ toString i ++ ". [" ++ mem.timestamp ++ "] " ++ pyTake mem.content 300 ++ "..."

/-- `Ghost._build_context` (ghost_web.py lines 158-171). -/
def buildContextWeb (pj : ProfileW → String)
    (rank : List ConvRecord → String → List ConvRecord)
    (store : List ConvRecord) (profile : ProfileW) (user_message : String) : String :=
  let relevant_memories := searchMemory rank store user_message 3
  let context_parts := ["User Profile: " ++ pj profile]
  let context_parts :=
    if relevant_memories.isEmpty then context_parts
    else context_parts ++ ["\nRelevant past interactions:"]
      ++ relevant_memories.enum.map (fun p => webEntry (p.1 + 1) p.2)
  String.intercalate "\n" context_parts

/-- The static persona text of ghost_web.py `chat` (lines 182-188). -/
def systemPromptWeb : String :=
  "You are Ghost, a self-improving AI assistant. You have access to:\n1. User profile and preferences\n2. Past conversation history\n3. Learned knowledge over time\n\nYour goal is to provide increasingly personalized and helpful responses as you learn more about the user.\nBe adaptive, remember context, and continuously improve."

/-- `Ghost.chat` (ghost_web.py lines 178-218) with the default
`use_memory=True`.  Returns the reply (`none` when the completion call
raises) and the state after the call. -/
def chat (completion : String → List Message → Option String)
    (pj : ProfileW → String)
    (rank : List ConvRecord → String → List ConvRecord)
    (st : WebState) (user_message : String) (session_id : String) :
    Option String × WebState :=
  let profile1 := updateInteractionCount st.profile
  let st1 := { st with profile := profile1, disk := some profile1 }
  let system_prompt := systemPromptWeb ++ "\n\nCONTEXT FROM MEMORY:\n"
    ++ buildContextWeb pj rank st.memConversations profile1 user_message
  let gs := getSession st.sessions session_id
  let session := gs.2
  let st2 := { st1 with sessions := gs.1 }
  let messages := session ++ [⟨"user", user_message⟩]
  match completion system_prompt messages with
  | none => (none, st2)
  | some ai_response =>
    let session1 := session ++ [⟨"user", user_message⟩, ⟨"assistant", ai_response⟩]
    let session2 := if session1.length > 20 then pyLastSlice session1 20 else session1
    (some ai_response, { st2 with sessions := setSession st2.sessions session_id session2 })

/-- `Ghost.rate_last_response` (ghost_web.py lines 220-237). -/
def rateLastResponse (tsv iso : String) (st : WebState) (rating : Nat)
    (session_id : String) : String × WebState :=
  let gs := getSession st.sessions session_id
  let session := gs.2
  let st1 := { st with sessions := gs.1 }
  if 2 ≤ session.length then
    let user_msg := (session.getD (session.length - 2) default).content
    let ai_msg := (session.getD (session.length - 1) default).content
    let st2 := { st1 with memConversations :=
      st1.memConversations ++ [addConversation tsv iso user_msg ai_msg (some rating)] }
    let st3 :=
      if 4 ≤ rating then
        { st2 with memKnowledge := st2.memKnowledge
          ++ [addKnowledge tsv iso ("Good response pattern: " ++ pyTake ai_msg 500) "high_rated"] }
      else st2
    ("Response rated " ++ toString rating ++ "/5 and saved to memory!", st3)
  else
    ("No response to rate yet.", st1)

/-- `Ghost.clear_session` (ghost_web.py lines 239-243). -/
def clearSession (st : WebState) (session_id : String) : String × WebState :=
  let st1 :=
    match dictGet st.sessions session_id with
    | some _ => { st with sessions := setSession st.sessions session_id [] }
    | none => st
  ("Session cleared. Long-term memory preserved.", st1)

/-! ### Sequences of user-visible operations -/

/-- The external collaborators one ghost.py operation depends on: profile
serialization, memory ranking, and the two clock readings. -/
structure Env where
  pj : Profile → String
  rank : List ConvRecord → String → List ConvRecord
  tsv : String
  iso : String

/-- One user-visible operation of the ghost.py CLI: a chat turn (with the
outcome of its external completion call), a `/rate N`, or a `/clear`. -/
inductive Op where
  | turn (user_message : String) (completion : Option String)
  | rateOp (rating : Nat)
  | resetOp

/-- Execute one ghost.py operation. -/
def exec (env : Env) (st : GhostState) : Op → GhostState
  | .turn msg c => (talk (fun _ _ => c) env.pj env.rank st msg).2
  | .rateOp r => (rate env.tsv env.iso st r).2
  | .resetOp => (resetSession st).2

/-- Execute a sequence of ghost.py operations. -/
def run (env : Env) (st : GhostState) (ops : List Op) : GhostState :=
  ops.foldl (exec env) st

/-- The external collaborators of one ghost_web.py operation. -/
structure EnvW where
  pj : ProfileW → String
  rank : List ConvRecord → String → List ConvRecord
  tsv : String
  iso : String

/-- One operation of the ghost_web.py HTTP surface: `POST /api/chat` (with
the outcome of its completion call), `POST /api/rate`, or a session clear. -/
inductive OpW where
  | turnW (user_message : String) (session_id : String) (completion : Option String)
  | rateW (rating : Nat) (session_id : String)
  | clearW (session_id : String)

/-- Execute one ghost_web.py operation. -/
def execW (env : EnvW) (st : WebState) : OpW → WebState
  | .turnW msg sid c => (chat (fun _ _ => c) env.pj env.rank st msg sid).2
  | .rateW r sid => (rateLastResponse env.tsv env.iso st r sid).2
  | .clearW sid => (clearSession st sid).2

/-- Execute a sequence of ghost_web.py operations. -/
def runW (env : EnvW) (st : WebState) (ops : List OpW) : WebState :=
  ops.foldl (execW env) st

/-! ### Helper lemmas: session evolution in ghost.py -/

lemma talk_session_none (pj : Profile → String)
    (rank : List ConvRecord → String → List ConvRecord)
    (st : GhostState) (msg : String) :
    (talk (fun _ _ => none) pj rank st msg).2.session = st.session := rfl

lemma talk_session_some (pj : Profile → String)
    (rank : List ConvRecord → String → List ConvRecord)
    (st : GhostState) (msg resp : String) :
    (talk (fun _ _ => some resp) pj rank st msg).2.session =
      (let s1 := st.session ++ [⟨"user", msg⟩, ⟨"assistant", resp⟩]
       if s1.length > 20 then pyLastSlice s1 20 else s1) := rfl

/-- The length of the window after the `session[-20:]` truncation step. -/
lemma length_truncate (l : List Message) :
    (if l.length > 20 then pyLastSlice l 20 else l).length = min l.length 20 := by
  by_cases h : l.length > 20
  · simp only [h, if_true, pyLastSlice, List.length_drop]
    omega
  · simp only [h, if_false]
    omega

/-- The `session[-20:]` truncation keeps a suffix (the most recent entries). -/
lemma truncate_suffix (l : List Message) :
    (if l.length > 20 then pyLastSlice l 20 else l) <:+ l := by
  by_cases h : l.length > 20
  · simp only [h, if_true, pyLastSlice]
    exact List.drop_suffix _ _
  · simp only [h, if_false]
    exact List.suffix_refl l

lemma talk_session_some_length (pj : Profile → String)
    (rank : List ConvRecord → String → List ConvRecord)
    (st : GhostState) (msg resp : String) :
    ((talk (fun _ _ => some resp) pj rank st msg).2.session).length =
      min (st.session.length + 2) 20 := by
  rw [talk_session_some]
  have := length_truncate (st.session ++ [⟨"user", msg⟩, ⟨"assistant", resp⟩])
  simp only [List.length_append, List.length_cons, List.length_nil] at this ⊢
  omega

lemma rate_session (tsv iso : String) (st : GhostState) (r : Nat) :
    (rate tsv iso st r).2.session = st.session := by
  unfold rate
  by_cases h : 2 ≤ st.session.length
  · by_cases h4 : 4 ≤ r <;> simp [h, h4]
  · simp [h]

lemma reset_session_session (st : GhostState) : (resetSession st).2.session = [] := rfl

lemma exec_session_length_le (env : Env) (op : Op) (st : GhostState)
    (h : st.session.length ≤ 20) : (exec env st op).session.length ≤ 20 := by
  cases op with
  | turn msg c =>
    cases c with
    | none => simpa only [exec, talk_session_none] using h
    | some r =>
      show ((talk (fun _ _ => some r) env.pj env.rank st msg).2.session).length ≤ 20
      rw [talk_session_some_length]
      omega
  | rateOp r => simpa only [exec, rate_session] using h
  | resetOp => simp [exec, reset_session_session]

lemma exec_session_even (env : Env) (op : Op) (st : GhostState)
    (h : Even st.session.length) : Even (exec env st op).session.length := by
  cases op with
  | turn msg c =>
    cases c with
    | none => simpa only [exec, talk_session_none] using h
    | some r =>
      show Even ((talk (fun _ _ => some r) env.pj env.rank st msg).2.session).length
      rw [talk_session_some_length]
      rw [Nat.even_iff] at h ⊢
      omega
  | rateOp r => simpa only [exec, rate_session] using h
  | resetOp => simp [exec, reset_session_session]

lemma run_session_length_le (env : Env) (ops : List Op) :
    ∀ st : GhostState, st.session.length ≤ 20 → (run env st ops).session.length ≤ 20 := by
  induction ops with
  | nil => intro st h; simpa [run] using h
  | cons op ops ih =>
    intro st h
    have : run env st (op :: ops) = run env (exec env st op) ops := rfl
    rw [this]
    exact ih _ (exec_session_length_le env op st h)

lemma run_session_even (env : Env) (ops : List Op) :
    ∀ st : GhostState, Even st.session.length → Even (run env st ops).session.length := by
  induction ops with
  | nil => intro st h; simpa [run] using h
  | cons op ops ih =>
    intro st h
    have : run env st (op :: ops) = run env (exec env st op) ops := rfl
    rw [this]
    exact ih _ (exec_session_even env op st h)

/-! ### Helper lemmas: session windows in ghost_web.py -/

lemma dictGet_append_single_none {s : List (String × List Message)} {sid' : String}
    (sid : String) (w : List Message) (h : dictGet s sid' = none) :
    dictGet (s ++ [(sid, w)]) sid' = if sid = sid' then some w else none := by
  induction s with
  | nil => simp [dictGet]
  | cons kv rest ih =>
    obtain ⟨k, v⟩ := kv
    by_cases hk : k = sid'
    · simp [dictGet, hk] at h
    · simp only [dictGet, hk, if_false] at h
      simpa [dictGet, hk] using ih h

lemma dictGet_append_single_some {s : List (String × List Message)} {sid' : String}
    {v : List Message} (sid : String) (w : List Message) (h : dictGet s sid' = some v) :
    dictGet (s ++ [(sid, w)]) sid' = some v := by
  induction s with
  | nil => simp [dictGet] at h
  | cons kv rest ih =>
    obtain ⟨k, u⟩ := kv
    by_cases hk : k = sid'
    · simp only [dictGet, hk, if_true] at h
      simp [dictGet, hk, h]
    · simp only [dictGet, hk, if_false] at h
      simpa [dictGet, hk] using ih h

lemma dictGet_setSession (s : List (String × List Message)) (sid : String)
    (w : List Message) (sid' : String) :
    dictGet (setSession s sid w) sid' = if sid = sid' then some w else dictGet s sid' := by
  induction s with
  | nil => simp [setSession, dictGet]
  | cons kv rest ih =>
    obtain ⟨k, v⟩ := kv
    by_cases hk : k = sid
    · subst hk
      by_cases h' : k = sid'
      · subst h'; simp [setSession, dictGet]
      · simp [setSession, dictGet, h']
    · by_cases h' : k = sid'
      · subst h'
        have : ¬ sid = k := fun e => hk e.symm
        simp [setSession, dictGet, hk, this]
      · simp [setSession, dictGet, hk, h', ih]

/-- After `get_session`, looking any id up yields the same window as before
(the lazily inserted window is empty, matching the absent default). -/
lemma window_getSession_fst (sessions : List (String × List Message)) (sid sid' : String) :
    (dictGet (getSession sessions sid).1 sid').getD [] = (dictGet sessions sid').getD [] := by
  unfold getSession
  cases h : dictGet sessions sid with
  | some w => rfl
  | none =>
    cases h' : dictGet sessions sid' with
    | some v => simp [dictGet_append_single_some sid ([] : List Message) h']
    | none =>
      rw [dictGet_append_single_none sid ([] : List Message) h']
      by_cases e : sid = sid' <;> simp [e]

/-- `get_session` returns the window currently associated with the id. -/
lemma getSession_snd (sessions : List (String × List Message)) (sid : String) :
    (getSession sessions sid).2 = (dictGet sessions sid).getD [] := by
  unfold getSession
  cases h : dictGet sessions sid <;> rfl

lemma chat_window_none (pj : ProfileW → String)
    (rank : List ConvRecord → String → List ConvRecord)
    (st : WebState) (msg sid sid' : String) :
    windowOf (chat (fun _ _ => none) pj rank st msg sid).2 sid' = windowOf st sid' := by
  show (dictGet (getSession st.sessions sid).1 sid').getD [] = windowOf st sid'
  rw [window_getSession_fst]
  rfl

lemma chat_window_some (pj : ProfileW → String)
    (rank : List ConvRecord → String → List ConvRecord)
    (st : WebState) (msg resp sid sid' : String) :
    windowOf (chat (fun _ _ => some resp) pj rank st msg sid).2 sid' =
      (if sid = sid' then
        (let s1 := windowOf st sid ++ [⟨"user", msg⟩, ⟨"assistant", resp⟩]
         if s1.length > 20 then pyLastSlice s1 20 else s1)
       else windowOf st sid') := by
  show (dictGet (setSession (getSession st.sessions sid).1 sid
      (let s1 := (getSession st.sessions sid).2 ++ [⟨"user", msg⟩, ⟨"assistant", resp⟩]
       if s1.length > 20 then pyLastSlice s1 20 else s1)) sid').getD [] = _
  rw [dictGet_setSession]
  by_cases e : sid = sid'
  · simp only [e, if_true, Option.getD_some, getSession_snd]
    rfl
  · simp only [e, if_false]
    rw [window_getSession_fst]
    rfl

lemma rateLast_window (tsv iso : String) (st : WebState) (r : Nat) (sid sid' : String) :
    windowOf (rateLastResponse tsv iso st r sid).2 sid' = windowOf st sid' := by
  unfold rateLastResponse
  by_cases h : 2 ≤ (getSession st.sessions sid).2.length
  · by_cases h4 : 4 ≤ r <;>
      simpa [h, h4, windowOf] using window_getSession_fst st.sessions sid sid'
  · simpa [h, windowOf] using window_getSession_fst st.sessions sid sid'

lemma clearSession_window (st : WebState) (sid sid' : String) :
    windowOf (clearSession st sid).2 sid' =
      (if sid = sid' then [] else windowOf st sid') := by
  unfold clearSession windowOf
  cases h : dictGet st.sessions sid with
  | some w =>
    simp only [dictGet_setSession]
    by_cases e : sid = sid' <;> simp [e]
  | none =>
    by_cases e : sid = sid'
    · subst e; simp [h]
    · simp [e]

lemma execW_window_le (env : EnvW) (op : OpW) (st : WebState)
    (h : ∀ sid, (windowOf st sid).length ≤ 20) :
    ∀ sid, (windowOf (execW env st op) sid).length ≤ 20 := by
  intro sid'
  cases op with
  | turnW msg sid c =>
    cases c with
    | none => rw [show execW env st (.turnW msg sid none) =
        (chat (fun _ _ => none) env.pj env.rank st msg sid).2 from rfl,
        chat_window_none]; exact h sid'
    | some r =>
      rw [show execW env st (.turnW msg sid (some r)) =
        (chat (fun _ _ => some r) env.pj env.rank st msg sid).2 from rfl,
        chat_window_some]
      by_cases e : sid = sid'
      · simp only [e, if_true]
        rw [length_truncate]
        omega
      · simp only [e, if_false]; exact h sid'
  | rateW r sid => rw [show execW env st (.rateW r sid) =
      (rateLastResponse env.tsv env.iso st r sid).2 from rfl, rateLast_window]; exact h sid'
  | clearW sid =>
    rw [show execW env st (.clearW sid) = (clearSession st sid).2 from rfl, clearSession_window]
    by_cases e : sid = sid' <;> simp [e, h sid']

lemma execW_window_even (env : EnvW) (op : OpW) (st : WebState)
    (h : ∀ sid, Even (windowOf st sid).length) :
    ∀ sid, Even (windowOf (execW env st op) sid).length := by
  intro sid'
  cases op with
  | turnW msg sid c =>
    cases c with
    | none => rw [show execW env st (.turnW msg sid none) =
        (chat (fun _ _ => none) env.pj env.rank st msg sid).2 from rfl,
        chat_window_none]; exact h sid'
    | some r =>
      rw [show execW env st (.turnW msg sid (some r)) =
        (chat (fun _ _ => some r) env.pj env.rank st msg sid).2 from rfl,
        chat_window_some]
      by_cases e : sid = sid'
      · simp only [e, if_true]
        rw [Nat.even_iff]
        rw [length_truncate]
        have := h sid'
        rw [Nat.even_iff] at this
        simp only [List.length_append, List.length_cons, List.length_nil]
        omega
      · simp only [e, if_false]; exact h sid'
  | rateW r sid => rw [show execW env st (.rateW r sid) =
      (rateLastResponse env.tsv env.iso st r sid).2 from rfl, rateLast_window]; exact h sid'
  | clearW sid =>
    rw [show execW env st (.clearW sid) = (clearSession st sid).2 from rfl, clearSession_window]
    by_cases e : sid = sid' <;> simp [e, h sid']

lemma runW_window_le (env : EnvW) (ops : List OpW) :
    ∀ st : WebState, (∀ sid, (windowOf st sid).length ≤ 20) →
      ∀ sid, (windowOf (runW env st ops) sid).length ≤ 20 := by
  induction ops with
  | nil => intro st h; simpa [runW] using h
  | cons op ops ih =>
    intro st h
    have : runW env st (op :: ops) = runW env (execW env st op) ops := rfl
    rw [this]
    exact ih _ (execW_window_le env op st h)

lemma runW_window_even (env : EnvW) (ops : List OpW) :
    ∀ st : WebState, (∀ sid, Even (windowOf st sid).length) →
      ∀ sid, Even (windowOf (runW env st ops) sid).length := by
  induction ops with
  | nil => intro st h; simpa [runW] using h
  | cons op ops ih =>
    intro st h
    have : runW env st (op :: ops) = runW env (execW env st op) ops := rfl
    rw [this]
    exact ih _ (execW_window_even env op st h)

/-- The window a successful web turn writes for the chatted session id. -/
lemma chat_window_some_self (pj : ProfileW → String)
    (rank : List ConvRecord → String → List ConvRecord)
    (st : WebState) (msg resp sid : String) :
    windowOf (chat (fun _ _ => some resp) pj rank st msg sid).2 sid =
      (let s1 := windowOf st sid ++ [⟨"user", msg⟩, ⟨"assistant", resp⟩]
       if s1.length > 20 then pyLastSlice s1 20 else s1) := by
  rw [chat_window_some]
  simp

/-! ### Claim theorems -/

/-- C1: starting from a fresh (empty) session window, after any sequence of
turns — in the CLI variant and, for every session id, in the web variant —
the session window holds at most 20 entries; and a successful turn always
keeps exactly the most recent `min (previous + 2) 20` entries, i.e. it drops
the oldest entries first (the new window is a suffix of the old window with
the new user/assistant pair appended). -/
theorem c1_session_window_capped :
    (∀ (env : Env) (p : Profile) (d : Option Profile) (mc : List ConvRecord)
        (k : List Insight) (ops : List Op),
      (run env ⟨[], p, d, mc, k⟩ ops).session.length ≤ 20)
    ∧ (∀ (env : EnvW) (pw : ProfileW) (d : Option ProfileW) (mc : List ConvRecord)
        (k : List Insight) (ops : List OpW) (sid : String),
      (windowOf (runW env ⟨[], pw, d, mc, k⟩ ops) sid).length ≤ 20)
    ∧ (∀ (pj : Profile → String) (rank : List ConvRecord → String → List ConvRecord)
        (st : GhostState) (msg resp : String),
      ((talk (fun _ _ => some resp) pj rank st msg).2.session).length =
          min (st.session.length + 2) 20
        ∧ (talk (fun _ _ => some resp) pj rank st msg).2.session <:+
            st.session ++ [⟨"user", msg⟩, ⟨"assistant", resp⟩])
    ∧ (∀ (pj : ProfileW → String) (rank : List ConvRecord → String → List ConvRecord)
        (st : WebState) (msg resp sid : String),
      (windowOf (chat (fun _ _ => some resp) pj rank st msg sid).2 sid).length =
          min ((windowOf st sid).length + 2) 20
        ∧ windowOf (chat (fun _ _ => some resp) pj rank st msg sid).2 sid <:+
            windowOf st sid ++ [⟨"user", msg⟩, ⟨"assistant", resp⟩]) := by
  refine ⟨?_, ?_, ?_, ?_⟩
  · intro env p d mc k ops
    exact run_session_length_le env ops _ (by simp)
  · intro env pw d mc k ops sid
    refine runW_window_le env ops _ (fun sid' => ?_) sid
    simp [windowOf, dictGet]
  · intro pj rank st msg resp
    constructor
    · rw [talk_session_some_length]
    · rw [talk_session_some]
      exact truncate_suffix _
  · intro pj rank st msg resp sid
    constructor
    · rw [chat_window_some_self]
      rw [length_truncate]
      simp only [List.length_append, List.length_cons, List.length_nil]
    · rw [chat_window_some_self]
      exact truncate_suffix _

/-- C8: the session window always has even length — starting from the empty
window every operation sequence preserves even length, in both variants;
moreover `rate` / `rate_last_response` never modify any window, and
`reset_session` / `clear_session` leave the (cleared) window empty. -/
theorem c8_session_window_even :
    (∀ (env : Env) (p : Profile) (d : Option Profile) (mc : List ConvRecord)
        (k : List Insight) (ops : List Op),
      Even (run env ⟨[], p, d, mc, k⟩ ops).session.length)
    ∧ (∀ (env : EnvW) (pw : ProfileW) (d : Option ProfileW) (mc : List ConvRecord)
        (k : List Insight) (ops : List OpW) (sid : String),
      Even (windowOf (runW env ⟨[], pw, d, mc, k⟩ ops) sid).length)
    ∧ (∀ (tsv iso : String) (st : GhostState) (r : Nat),
      (rate tsv iso st r).2.session = st.session)
    ∧ (∀ (tsv iso : String) (st : WebState) (r : Nat) (sid sid' : String),
      windowOf (rateLastResponse tsv iso st r sid).2 sid' = windowOf st sid')
    ∧ (∀ st : GhostState, (resetSession st).2.session = [])
    ∧ (∀ (st : WebState) (sid : String), windowOf (clearSession st sid).2 sid = []) := by
  refine ⟨?_, ?_, rate_session, rateLast_window, reset_session_session, ?_⟩
  · intro env p d mc k ops
    exact run_session_even env ops _ (by simp)
  · intro env pw d mc k ops sid
    refine runW_window_even env ops _ (fun sid' => ?_) sid
    simp [windowOf, dictGet]
  · intro st sid
    rw [clearSession_window]
    simp

/-- C5: when the external completion call fails (the call raises, modelled by
`completion` returning `none`), the session window is exactly as before the
turn — the new user message is never left appended without an assistant
reply; in the web variant this holds for every session id's window. -/
theorem c5_failed_turn_leaves_window :
    (∀ (completion : String → List Message → Option String) (pj : Profile → String)
        (rank : List ConvRecord → String → List ConvRecord) (st : GhostState) (msg : String),
      (talk completion pj rank st msg).1 = none →
        (talk completion pj rank st msg).2.session = st.session)
    ∧ (∀ (completion : String → List Message → Option String) (pj : ProfileW → String)
        (rank : List ConvRecord → String → List ConvRecord) (st : WebState)
        (msg sid sid' : String),
      (chat completion pj rank st msg sid).1 = none →
        windowOf (chat completion pj rank st msg sid).2 sid' = windowOf st sid') := by
  constructor
  · intro completion pj rank st msg
    cases hc : completion (systemPromptCLI ++ "\n\nCONTEXT:\n"
        ++ buildContext pj rank st.memConversations (addChat st.profile) msg)
        (st.session ++ [⟨"user", msg⟩]) with
    | none => intro _; simp [talk, hc]
    | some r => intro h; simp [talk, hc] at h
  · intro completion pj rank st msg sid sid'
    cases hc : completion (systemPromptWeb ++ "\n\nCONTEXT FROM MEMORY:\n"
        ++ buildContextWeb pj rank st.memConversations (updateInteractionCount st.profile) msg)
        ((getSession st.sessions sid).2 ++ [⟨"user", msg⟩]) with
    | none =>
      intro _
      have hs : (chat completion pj rank st msg sid).2.sessions =
          (getSession st.sessions sid).1 := by
        simp [chat, hc]
      unfold windowOf
      rw [hs, window_getSession_fst]
    | some r => intro h; simp [chat, hc] at h

/-- Witness for C5: a failing completion call on a two-entry window leaves
the window as it was. -/
theorem c5_failed_turn_leaves_window_witness :
    ((talk (fun _ _ => none) (fun _ => "P") (fun s _ => s)
        ⟨[⟨"user", "hello"⟩, ⟨"assistant", "hi"⟩],
         ⟨"User", [], [], [], "adaptive", 0, "t0"⟩, none, [], []⟩ "again").1 = none)
    ∧ (talk (fun _ _ => none) (fun _ => "P") (fun s _ => s)
        ⟨[⟨"user", "hello"⟩, ⟨"assistant", "hi"⟩],
         ⟨"User", [], [], [], "adaptive", 0, "t0"⟩, none, [], []⟩ "again").2.session =
      [⟨"user", "hello"⟩, ⟨"assistant", "hi"⟩] := by
  refine ⟨rfl, ?_⟩
  exact c5_failed_turn_leaves_window.1 _ _ _ _ _ rfl

/-- C9: `add_chat` / `update_interaction_count` runs (and saves the profile)
before the completion call is issued, so the on-disk profile carries the
incremented counter whatever the call's outcome; a turn whose completion
call fails still increments `total_chats` by one and changes no other
profile field. -/
theorem c9_total_chats_incremented_before_completion :
    (∀ (completion : String → List Message → Option String) (pj : Profile → String)
        (rank : List ConvRecord → String → List ConvRecord) (st : GhostState) (msg : String),
      (talk completion pj rank st msg).2.disk = some (addChat st.profile))
    ∧ (∀ (completion : String → List Message → Option String) (pj : Profile → String)
        (rank : List ConvRecord → String → List ConvRecord) (st : GhostState) (msg : String),
      (talk completion pj rank st msg).1 = none →
        (talk completion pj rank st msg).2.profile.total_chats = st.profile.total_chats + 1
        ∧ (talk completion pj rank st msg).2.disk = some ((talk completion pj rank st msg).2.profile)
        ∧ (talk completion pj rank st msg).2.profile.name = st.profile.name
        ∧ (talk completion pj rank st msg).2.profile.preferences = st.profile.preferences
        ∧ (talk completion pj rank st msg).2.profile.interests = st.profile.interests
        ∧ (talk completion pj rank st msg).2.profile.goals = st.profile.goals
        ∧ (talk completion pj rank st msg).2.profile.communication_style
            = st.profile.communication_style
        ∧ (talk completion pj rank st msg).2.profile.created = st.profile.created)
    ∧ (∀ (completion : String → List Message → Option String) (pj : ProfileW → String)
        (rank : List ConvRecord → String → List ConvRecord) (st : WebState) (msg sid : String),
      (chat completion pj rank st msg sid).1 = none →
        (chat completion pj rank st msg sid).2.profile.total_chats = st.profile.total_chats + 1
        ∧ (chat completion pj rank st msg sid).2.disk
            = some ((chat completion pj rank st msg sid).2.profile)
        ∧ (chat completion pj rank st msg sid).2.profile.name = st.profile.name
        ∧ (chat completion pj rank st msg sid).2.profile.preferences = st.profile.preferences
        ∧ (chat completion pj rank st msg sid).2.profile.expertise_areas
            = st.profile.expertise_areas
        ∧ (chat completion pj rank st msg sid).2.profile.goals = st.profile.goals
        ∧ (chat completion pj rank st msg sid).2.profile.communication_style
            = st.profile.communication_style
        ∧ (chat completion pj rank st msg sid).2.profile.created_at = st.profile.created_at) := by
  refine ⟨?_, ?_, ?_⟩
  · intro completion pj rank st msg
    cases hc : completion (systemPromptCLI ++ "\n\nCONTEXT:\n"
        ++ buildContext pj rank st.memConversations (addChat st.profile) msg)
        (st.session ++ [⟨"user", msg⟩]) <;> simp [talk, hc]
  · intro completion pj rank st msg
    cases hc : completion (systemPromptCLI ++ "\n\nCONTEXT:\n"
        ++ buildContext pj rank st.memConversations (addChat st.profile) msg)
        (st.session ++ [⟨"user", msg⟩]) with
    | none =>
      intro _
      simp only [talk, hc]
      simp [addChat]
    | some r => intro h; simp [talk, hc] at h
  · intro completion pj rank st msg sid
    cases hc : completion (systemPromptWeb ++ "\n\nCONTEXT FROM MEMORY:\n"
        ++ buildContextWeb pj rank st.memConversations (updateInteractionCount st.profile) msg)
        ((getSession st.sessions sid).2 ++ [⟨"user", msg⟩]) with
    | none =>
      intro _
      simp only [chat, hc]
      simp [updateInteractionCount]
    | some r => intro h; simp [chat, hc] at h

/-- Witness for C9: a failing completion call still bumps `total_chats` from
0 to 1 and leaves the other profile fields alone. -/
theorem c9_total_chats_incremented_witness :
    ((talk (fun _ _ => none) (fun _ => "P") (fun s _ => s)
        ⟨[], ⟨"User", [], [], [], "adaptive", 0, "t0"⟩, none, [], []⟩ "hello").1 = none)
    ∧ (talk (fun _ _ => none) (fun _ => "P") (fun s _ => s)
        ⟨[], ⟨"User", [], [], [], "adaptive", 0, "t0"⟩, none, [], []⟩ "hello").2.profile.total_chats
        = 0 + 1
    ∧ (talk (fun _ _ => none) (fun _ => "P") (fun s _ => s)
        ⟨[], ⟨"User", [], [], [], "adaptive", 0, "t0"⟩, none, [], []⟩ "hello").2.profile.name
        = "User" := by
  refine ⟨rfl, ?_, ?_⟩
  · exact (c9_total_chats_incremented_before_completion.2.1 (fun _ _ => none) (fun _ => "P")
      (fun s _ => s) ⟨[], ⟨"User", [], [], [], "adaptive", 0, "t0"⟩, none, [], []⟩ "hello" rfl).1
  · exact (c9_total_chats_incremented_before_completion.2.1 (fun _ _ => none) (fun _ => "P")
      (fun s _ => s) ⟨[], ⟨"User", [], [], [], "adaptive", 0, "t0"⟩, none, [], []⟩ "hello"
      rfl).2.2.1

/-! ### Helper lemmas: the rate operations -/

lemma rate_conv_length (tsv iso : String) (st : GhostState) (r : Nat)
    (h : 2 ≤ st.session.length) :
    (rate tsv iso st r).2.memConversations.length = st.memConversations.length + 1 := by
  unfold rate
  by_cases h4 : 4 ≤ r <;> simp [h, h4]

lemma rate_know_length_high (tsv iso : String) (st : GhostState) (r : Nat)
    (h : 2 ≤ st.session.length) (h4 : 4 ≤ r) :
    (rate tsv iso st r).2.memKnowledge.length = st.memKnowledge.length + 1 := by
  unfold rate
  simp [h, h4]

lemma rate_know_length_low (tsv iso : String) (st : GhostState) (r : Nat)
    (h : 2 ≤ st.session.length) (h4 : ¬ 4 ≤ r) :
    (rate tsv iso st r).2.memKnowledge = st.memKnowledge := by
  unfold rate
  simp [h, h4]

lemma rateLast_guard (st : WebState) (sid : String)
    (h : 2 ≤ (windowOf st sid).length) :
    2 ≤ (getSession st.sessions sid).2.length := by
  rw [getSession_snd]
  exact h

lemma rateLast_conv_length (tsv iso : String) (st : WebState) (r : Nat) (sid : String)
    (h : 2 ≤ (windowOf st sid).length) :
    (rateLastResponse tsv iso st r sid).2.memConversations.length
      = st.memConversations.length + 1 := by
  have hg := rateLast_guard st sid h
  unfold rateLastResponse
  by_cases h4 : 4 ≤ r <;> simp [hg, h4]

lemma rateLast_know_length_high (tsv iso : String) (st : WebState) (r : Nat) (sid : String)
    (h : 2 ≤ (windowOf st sid).length) (h4 : 4 ≤ r) :
    (rateLastResponse tsv iso st r sid).2.memKnowledge.length
      = st.memKnowledge.length + 1 := by
  have hg := rateLast_guard st sid h
  unfold rateLastResponse
  simp [hg, h4]

lemma rateLast_know_length_low (tsv iso : String) (st : WebState) (r : Nat) (sid : String)
    (h : 2 ≤ (windowOf st sid).length) (h4 : ¬ 4 ≤ r) :
    (rateLastResponse tsv iso st r sid).2.memKnowledge = st.memKnowledge := by
  have hg := rateLast_guard st sid h
  unfold rateLastResponse
  simp [hg, h4]

/-- C2: on a window holding at least one user+assistant pair, a rate call
always stores exactly one ConversationRecord; a rating of 4 or 5 additionally
stores exactly one Insight/knowledge record, a rating of 1-3 stores none. -/
theorem c2_rating_creates_records :
    (∀ (tsv iso : String) (st : GhostState) (r : Nat), 2 ≤ st.session.length →
      (rate tsv iso st r).2.memConversations.length = st.memConversations.length + 1
      ∧ ((r = 4 ∨ r = 5) →
          (rate tsv iso st r).2.memKnowledge.length = st.memKnowledge.length + 1)
      ∧ ((r = 1 ∨ r = 2 ∨ r = 3) →
          (rate tsv iso st r).2.memKnowledge = st.memKnowledge))
    ∧ (∀ (tsv iso : String) (st : WebState) (r : Nat) (sid : String),
        2 ≤ (windowOf st sid).length →
      (rateLastResponse tsv iso st r sid).2.memConversations.length
          = st.memConversations.length + 1
      ∧ ((r = 4 ∨ r = 5) →
          (rateLastResponse tsv iso st r sid).2.memKnowledge.length
            = st.memKnowledge.length + 1)
      ∧ ((r = 1 ∨ r = 2 ∨ r = 3) →
          (rateLastResponse tsv iso st r sid).2.memKnowledge = st.memKnowledge)) := by
  constructor
  · intro tsv iso st r h
    refine ⟨rate_conv_length tsv iso st r h, ?_, ?_⟩
    · rintro (rfl | rfl) <;> exact rate_know_length_high tsv iso st _ h (by omega)
    · rintro (rfl | rfl | rfl) <;> exact rate_know_length_low tsv iso st _ h (by omega)
  · intro tsv iso st r sid h
    refine ⟨rateLast_conv_length tsv iso st r sid h, ?_, ?_⟩
    · rintro (rfl | rfl) <;> exact rateLast_know_length_high tsv iso st _ sid h (by omega)
    · rintro (rfl | rfl | rfl) <;> exact rateLast_know_length_low tsv iso st _ sid h (by omega)

/-- Witness for C2: rating 5 on a one-pair window stores one conversation and
one insight; the web variant likewise. -/
theorem c2_rating_creates_records_witness :
    (2 ≤ ([⟨"user", "hi"⟩, ⟨"assistant", "hello"⟩] : List Message).length)
    ∧ (rate "1000.0" "t1"
        ⟨[⟨"user", "hi"⟩, ⟨"assistant", "hello"⟩],
         ⟨"User", [], [], [], "adaptive", 1, "t0"⟩, none, [], []⟩ 5).2.memConversations.length
        = 0 + 1
    ∧ (rate "1000.0" "t1"
        ⟨[⟨"user", "hi"⟩, ⟨"assistant", "hello"⟩],
         ⟨"User", [], [], [], "adaptive", 1, "t0"⟩, none, [], []⟩ 5).2.memKnowledge.length
        = 0 + 1 := by
  refine ⟨by decide, ?_, ?_⟩
  · exact (c2_rating_creates_records.1 "1000.0" "t1"
      ⟨[⟨"user", "hi"⟩, ⟨"assistant", "hello"⟩],
       ⟨"User", [], [], [], "adaptive", 1, "t0"⟩, none, [], []⟩ 5 (by decide)).1
  · exact (c2_rating_creates_records.1 "1000.0" "t1"
      ⟨[⟨"user", "hi"⟩, ⟨"assistant", "hello"⟩],
       ⟨"User", [], [], [], "adaptive", 1, "t0"⟩, none, [], []⟩ 5 (by decide)).2.1 (Or.inr rfl)

/-- C3 counterexample: the code checks only `len(session) >= 2`, not
evenness, so a rate call on an odd window of three entries does NOT return
"nothing to rate" — it stores a ConversationRecord. -/
theorem c3_counterexample_odd_window_rated :
    (([⟨"user", "u1"⟩, ⟨"assistant", "a1"⟩, ⟨"user", "u2"⟩] : List Message).length % 2 = 1)
    ∧ (rate "1000.0" "t1"
        ⟨[⟨"user", "u1"⟩, ⟨"assistant", "a1"⟩, ⟨"user", "u2"⟩],
         ⟨"User", [], [], [], "adaptive", 0, "t0"⟩, none, [], []⟩ 3).1
        ≠ "No response to rate yet."
    ∧ (rate "1000.0" "t1"
        ⟨[⟨"user", "u1"⟩, ⟨"assistant", "a1"⟩, ⟨"user", "u2"⟩],
         ⟨"User", [], [], [], "adaptive", 0, "t0"⟩, none, [], []⟩ 3).2.memConversations.length
        = 1 := by
  refine ⟨by decide, by decide, by decide⟩

/-- C3 (amended): a rate call on a window with fewer than two entries (empty
or a lone message) returns "No response to rate yet." and changes nothing —
in the CLI variant the state is exactly unchanged; in the web variant the
memory collections and every session window are unchanged.  (The original
claim also covered odd windows of length 3 or more, but the code rates
those; they are unreachable through the program's own operations, whose
windows always have even length.) -/
theorem c3_rate_short_window_nothing :
    (∀ (tsv iso : String) (st : GhostState) (r : Nat), st.session.length < 2 →
      (rate tsv iso st r).1 = "No response to rate yet." ∧ (rate tsv iso st r).2 = st)
    ∧ (∀ (tsv iso : String) (st : WebState) (r : Nat) (sid : String),
        (windowOf st sid).length < 2 →
      (rateLastResponse tsv iso st r sid).1 = "No response to rate yet."
      ∧ (rateLastResponse tsv iso st r sid).2.memConversations = st.memConversations
      ∧ (rateLastResponse tsv iso st r sid).2.memKnowledge = st.memKnowledge
      ∧ ∀ sid', windowOf (rateLastResponse tsv iso st r sid).2 sid' = windowOf st sid') := by
  constructor
  · intro tsv iso st r h
    have h2 : ¬ 2 ≤ st.session.length := by omega
    unfold rate
    simp [h2]
  · intro tsv iso st r sid h
    have h2 : ¬ 2 ≤ (getSession st.sessions sid).2.length := by
      rw [getSession_snd]
      unfold windowOf at h
      omega
    refine ⟨?_, ?_, ?_, fun sid' => rateLast_window tsv iso st r sid sid'⟩
    · unfold rateLastResponse
      simp [h2]
    · unfold rateLastResponse
      simp [h2]
    · unfold rateLastResponse
      simp [h2]

/-- Witness for C3 (amended): rating with an empty session window. -/
theorem c3_rate_short_window_nothing_witness :
    (([] : List Message).length < 2)
    ∧ (rate "1000.0" "t1"
        ⟨[], ⟨"User", [], [], [], "adaptive", 0, "t0"⟩, none, [], []⟩ 4).1
        = "No response to rate yet."
    ∧ (rate "1000.0" "t1"
        ⟨[], ⟨"User", [], [], [], "adaptive", 0, "t0"⟩, none, [], []⟩ 4).2
        = ⟨[], ⟨"User", [], [], [], "adaptive", 0, "t0"⟩, none, [], []⟩ := by
  refine ⟨by decide, ?_, ?_⟩
  · exact (c3_rate_short_window_nothing.1 "1000.0" "t1"
      ⟨[], ⟨"User", [], [], [], "adaptive", 0, "t0"⟩, none, [], []⟩ 4 (by decide)).1
  · exact (c3_rate_short_window_nothing.1 "1000.0" "t1"
      ⟨[], ⟨"User", [], [], [], "adaptive", 0, "t0"⟩, none, [], []⟩ 4 (by decide)).2

/-- C10: rate is not idempotent — it never modifies the window, so rating
the same last exchange twice stores two ConversationRecords (the
conversation count goes up by two). -/
theorem c10_rate_twice_two_records :
    (∀ (tsv iso tsv2 iso2 : String) (st : GhostState) (r r2 : Nat),
        2 ≤ st.session.length →
      (rate tsv iso st r).2.session = st.session
      ∧ (rate tsv2 iso2 (rate tsv iso st r).2 r2).2.memConversations.length
          = st.memConversations.length + 2)
    ∧ (∀ (tsv iso tsv2 iso2 : String) (st : WebState) (r r2 : Nat) (sid : String),
        2 ≤ (windowOf st sid).length →
      windowOf (rateLastResponse tsv iso st r sid).2 sid = windowOf st sid
      ∧ (rateLastResponse tsv2 iso2 (rateLastResponse tsv iso st r sid).2 r2
          sid).2.memConversations.length = st.memConversations.length + 2) := by
  constructor
  · intro tsv iso tsv2 iso2 st r r2 h
    refine ⟨rate_session tsv iso st r, ?_⟩
    have h2 : 2 ≤ ((rate tsv iso st r).2.session).length := by
      rw [rate_session]
      exact h
    rw [rate_conv_length tsv2 iso2 _ r2 h2, rate_conv_length tsv iso st r h]
  · intro tsv iso tsv2 iso2 st r r2 sid h
    refine ⟨rateLast_window tsv iso st r sid sid, ?_⟩
    have h2 : 2 ≤ (windowOf (rateLastResponse tsv iso st r sid).2 sid).length := by
      rw [rateLast_window]
      exact h
    rw [rateLast_conv_length tsv2 iso2 _ r2 sid h2, rateLast_conv_length tsv iso st r sid h]

/-- Witness for C10: rating the same pair twice yields two stored records. -/
theorem c10_rate_twice_two_records_witness :
    (2 ≤ ([⟨"user", "hi"⟩, ⟨"assistant", "hello"⟩] : List Message).length)
    ∧ (rate "1001.0" "t2" (rate "1000.0" "t1"
        ⟨[⟨"user", "hi"⟩, ⟨"assistant", "hello"⟩],
         ⟨"User", [], [], [], "adaptive", 1, "t0"⟩, none, [], []⟩ 5).2
        5).2.memConversations.length = 0 + 2 := by
  refine ⟨by decide, ?_⟩
  exact (c10_rate_twice_two_records.1 "1000.0" "t1" "1001.0" "t2"
    ⟨[⟨"user", "hi"⟩, ⟨"assistant", "hello"⟩],
     ⟨"User", [], [], [], "adaptive", 1, "t0"⟩, none, [], []⟩ 5 5 (by decide)).2

/-- C4: `recall` / `search_memory` return at most `min limit count` hits for
every query, ranking and limit; on an empty store they return the empty list
(the empty-corpus guard fires before the similarity query). -/
theorem c4_recall_bounded :
    (∀ (rank : List ConvRecord → String → List ConvRecord) (store : List ConvRecord)
        (q : String) (n : Nat),
      («recall» rank store q n).length ≤ min n store.length
      ∧ (store = [] → «recall» rank store q n = []))
    ∧ (∀ (rank : List ConvRecord → String → List ConvRecord) (store : List ConvRecord)
        (q : String) (n : Nat),
      (searchMemory rank store q n).length ≤ min n store.length
      ∧ (store = [] → searchMemory rank store q n = [])) := by
  constructor
  · intro rank store q n
    constructor
    · unfold «recall» chromaQuery
      by_cases h : store.length = 0
      · simp [h]
      · simp only [h, if_false, List.length_map, List.length_take]
        omega
    · intro he
      subst he
      simp [«recall»]
  · intro rank store q n
    constructor
    · unfold searchMemory chromaQuery
      by_cases h : store.length = 0
      · simp [h]
      · simp only [h, if_false, List.length_map, List.length_take]
        omega
    · intro he
      subst he
      simp [searchMemory]

/-- Witness for C4: on the empty store the bound holds and the result is
exactly the empty list; a one-record store with limit 3 returns at most one
hit. -/
theorem c4_recall_bounded_witness :
    («recall» (fun s _ => s) [] "hello" 3).length ≤ min 3 ([] : List ConvRecord).length
    ∧ «recall» (fun s _ => s) [] "hello" 3 = []
    ∧ (searchMemory (fun s _ => s)
        [⟨"conv_1", "User: hi\nGhost: hello", "t1", "unrated", "hi"⟩] "hi" 3).length
        ≤ min 3 [(⟨"conv_1", "User: hi\nGhost: hello", "t1", "unrated", "hi"⟩ : ConvRecord)].length :=
  ⟨(c4_recall_bounded.1 (fun s _ => s) [] "hello" 3).1,
   (c4_recall_bounded.1 (fun s _ => s) [] "hello" 3).2 rfl,
   (c4_recall_bounded.2 (fun s _ => s)
     [⟨"conv_1", "User: hi\nGhost: hello", "t1", "unrated", "hi"⟩] "hi" 3).1⟩

/-- C6 fails on the code: a record id is derived solely from the clock
reading (`f"mem_{timestamp()}"` / `f"conv_{timestamp()}"`), so two records
created within the same instant get the SAME id, in both variants — the code
has no counter fallback.  This theorem evaluates the id scheme at one
concrete same-instant pair. -/
theorem c6_same_instant_ids_collide :
    (rememberConversation "1700000000.0" "2024-01-01T00:00:00"
        "first question" "first answer" none).id
      = (rememberConversation "1700000000.0" "2024-01-01T00:00:00"
        "second question" "second answer" (some 5)).id
    ∧ (addConversation "1700000000.0" "2024-01-01T00:00:00"
        "first question" "first answer" none).id
      = (addConversation "1700000000.0" "2024-01-01T00:00:00"
        "second question" "second answer" (some 5)).id
    ∧ (rememberConversation "1700000000.0" "2024-01-01T00:00:00"
        "first question" "first answer" none).id = "mem_1700000000.0" :=
  ⟨rfl, rfl, rfl⟩

/-! ### Helper lemmas: size of the assembled context block -/

lemma pyTake_length (s : String) (n : Nat) : (pyTake s n).length ≤ n := by
  unfold pyTake
  simp only [String.length_mk, List.length_take]
  omega

lemma intercalate_go_length (as : List String) : ∀ acc s : String,
    (String.intercalate.go acc s as).length
      ≤ acc.length + (as.map String.length).sum + as.length * s.length := by
  induction as with
  | nil =>
    intro acc s
    simp [String.intercalate.go]
  | cons a as ih =>
    intro acc s
    have h := ih (acc ++ s ++ a) s
    simp only [String.length_append] at h
    simp only [String.intercalate.go, List.map_cons, List.sum_cons, List.length_cons]
    have e : (as.length + 1) * s.length = as.length * s.length + s.length := by ring
    rw [e]
    omega

lemma intercalate_length (s : String) (l : List String) :
    (String.intercalate s l).length ≤ (l.map String.length).sum + l.length * s.length := by
  cases l with
  | nil => simp [String.intercalate]
  | cons a as =>
    have h := intercalate_go_length as a s
    simp only [String.intercalate, List.map_cons, List.sum_cons, List.length_cons]
    have e : (as.length + 1) * s.length = as.length * s.length + s.length := by ring
    rw [e]
    omega

lemma searchMemory_eq_recall : searchMemory = «recall» := rfl

lemma recall_length_le (rank : List ConvRecord → String → List ConvRecord)
    (store : List ConvRecord) (q : String) (n : Nat) :
    («recall» rank store q n).length ≤ n := by
  unfold «recall» chromaQuery
  by_cases h : store.length = 0
  · simp [h]
  · simp only [h, if_false, List.length_map, List.length_take]
    omega

lemma recall_mem_origin (rank : List ConvRecord → String → List ConvRecord)
    (store : List ConvRecord) (q : String) (n : Nat) (hit : MemHit)
    (hhit : hit ∈ «recall» rank store q n)
    (hrank : ∀ r ∈ rank store q, r ∈ store) :
    ∃ rec ∈ store, hit.timestamp = rec.timestamp ∧ hit.rating = rec.rating := by
  unfold «recall» chromaQuery at hhit
  by_cases h : store.length = 0
  · simp [h] at hhit
  · simp only [h, if_false, List.mem_map] at hhit
    obtain ⟨rec, hrec, rfl⟩ := hhit
    exact ⟨rec, hrank rec (List.take_subset _ _ hrec), rfl, rfl⟩

lemma mem_enumFrom_bound {α : Type} :
    ∀ (l : List α) (k : Nat) (q : Nat × α), q ∈ l.enumFrom k →
      q.1 < k + l.length ∧ q.2 ∈ l := by
  intro l
  induction l with
  | nil => intro k q h; simp [List.enumFrom] at h
  | cons a as ih =>
    intro k q h
    simp only [List.enumFrom, List.mem_cons] at h
    rcases h with rfl | h
    · refine ⟨by simp, List.mem_cons_self a as⟩
    · obtain ⟨h1, h2⟩ := ih (k + 1) q h
      refine ⟨by simp at h1 ⊢; omega, List.mem_cons_of_mem a h2⟩

lemma mem_enum_bound {α : Type} (l : List α) (q : Nat × α) (h : q ∈ l.enum) :
    q.1 < l.length ∧ q.2 ∈ l := by
  have h2 := mem_enumFrom_bound l 0 q h
  exact ⟨by omega, h2.2⟩

lemma toStringNat_le_three (i : Nat) (hi : i ≤ 3) : (toString i).length ≤ 1 := by
  interval_cases i <;> decide

lemma memEntry_length (i : Nat) (hi : i ≤ 3) (m : MemHit) (hr : m.rating.length ≤ 7) :
    (memEntry i m).length ≤ 430 := by
  unfold memEntry
  simp only [String.length_append]
  have h1 := toStringNat_le_three i hi
  have h2 := pyTake_length m.content 400
  have e1 : ("\n[Memory " : String).length = 9 := rfl
  have e2 : ("] [Rating: " : String).length = 11 := rfl
  have e3 : ("]\n" : String).length = 2 := rfl
  omega

lemma webEntry_length (i : Nat) (hi : i ≤ 3) (m : MemHit) (ht : m.timestamp.length ≤ 32) :
    (webEntry i m).length ≤ 342 := by
  unfold webEntry
  simp only [String.length_append]
  have h1 := toStringNat_le_three i hi
  have h2 := pyTake_length m.content 300
  have e1 : ("\n" : String).length = 1 := rfl
  have e2 : (". [" : String).length = 3 := rfl
  have e3 : ("] " : String).length = 2 := rfl
  have e4 : ("..." : String).length = 3 := rfl
  omega

lemma buildContext_le (pj : Profile → String)
    (rank : List ConvRecord → String → List ConvRecord)
    (store : List ConvRecord) (p : Profile) (msg : String)
    (hrank : ∀ r ∈ rank store msg, r ∈ store)
    (hrat : ∀ r ∈ store, r.rating.length ≤ 7) :
    (buildContext pj rank store p msg).length ≤ (pj p).length + 1400 := by
  unfold buildContext
  set mems := «recall» rank store msg 3 with hm
  by_cases he : mems.isEmpty
  · simp only [he, if_true]
    rw [show String.intercalate "\n" ["USER PROFILE:\n" ++ pj p]
      = "USER PROFILE:\n" ++ pj p from rfl]
    simp only [String.length_append]
    have e1 : ("USER PROFILE:\n" : String).length = 14 := rfl
    omega
  · simp only [he, Bool.false_eq_true, if_false]
    refine le_trans (intercalate_length _ _) ?_
    have hm3 : mems.length ≤ 3 := by
      rw [hm]
      exact recall_length_le rank store msg 3
    have hE : mems.enum.length = mems.length := by
      simp [List.enum, List.enumFrom_length]
    have hb : ∀ x ∈ (mems.enum.map (fun q => memEntry (q.1 + 1) q.2)).map String.length,
        x ≤ 430 := by
      intro x hx
      rw [List.mem_map] at hx
      obtain ⟨y, hy, rfl⟩ := hx
      rw [List.mem_map] at hy
      obtain ⟨q, hq, rfl⟩ := hy
      obtain ⟨hi, hmem⟩ := mem_enum_bound mems q hq
      rw [hm] at hmem
      obtain ⟨rec, hrec, hts, hr⟩ := recall_mem_origin rank store msg 3 q.2 hmem hrank
      exact memEntry_length (q.1 + 1) (by omega) q.2 (by rw [hr]; exact hrat rec hrec)
    have hS := List.sum_le_card_nsmul _ 430 hb
    simp only [smul_eq_mul, List.length_map, hE] at hS
    simp only [List.map_append, List.sum_append, List.length_append, List.map_cons,
      List.map_nil, List.sum_cons, List.sum_nil, List.length_cons, List.length_nil,
      String.length_append, List.length_map, hE]
    have e1 : ("USER PROFILE:\n" : String).length = 14 := rfl
    have e2 : ("\nRELEVANT MEMORIES:" : String).length = 19 := rfl
    have e3 : ("\n" : String).length = 1 := rfl
    rw [e3]
    omega

lemma buildContextWeb_le (pj : ProfileW → String)
    (rank : List ConvRecord → String → List ConvRecord)
    (store : List ConvRecord) (p : ProfileW) (msg : String)
    (hrank : ∀ r ∈ rank store msg, r ∈ store)
    (hts : ∀ r ∈ store, r.timestamp.length ≤ 32) :
    (buildContextWeb pj rank store p msg).length ≤ (pj p).length + 1100 := by
  unfold buildContextWeb
  rw [searchMemory_eq_recall]
  set mems := «recall» rank store msg 3 with hm
  by_cases he : mems.isEmpty
  · simp only [he, if_true]
    rw [show String.intercalate "\n" ["User Profile: " ++ pj p]
      = "User Profile: " ++ pj p from rfl]
    simp only [String.length_append]
    have e1 : ("User Profile: " : String).length = 14 := rfl
    omega
  · simp only [he, Bool.false_eq_true, if_false]
    refine le_trans (intercalate_length _ _) ?_
    have hm3 : mems.length ≤ 3 := by
      rw [hm]
      exact recall_length_le rank store msg 3
    have hE : mems.enum.length = mems.length := by
      simp [List.enum, List.enumFrom_length]
    have hb : ∀ x ∈ (mems.enum.map (fun q => webEntry (q.1 + 1) q.2)).map String.length,
        x ≤ 342 := by
      intro x hx
      rw [List.mem_map] at hx
      obtain ⟨y, hy, rfl⟩ := hx
      rw [List.mem_map] at hy
      obtain ⟨q, hq, rfl⟩ := hy
      obtain ⟨hi, hmem⟩ := mem_enum_bound mems q hq
      rw [hm] at hmem
      obtain ⟨rec, hrec, htse, hr⟩ := recall_mem_origin rank store msg 3 q.2 hmem hrank
      exact webEntry_length (q.1 + 1) (by omega) q.2 (by rw [htse]; exact hts rec hrec)
    have hS := List.sum_le_card_nsmul _ 342 hb
    simp only [smul_eq_mul, List.length_map, hE] at hS
    simp only [List.map_append, List.sum_append, List.length_append, List.map_cons,
      List.map_nil, List.sum_cons, List.sum_nil, List.length_cons, List.length_nil,
      String.length_append, List.length_map, hE]
    have e1 : ("User Profile: " : String).length = 14 := rfl
    have e2 : ("\nRelevant past interactions:" : String).length = 28 := rfl
    have e3 : ("\n" : String).length = 1 := rfl
    rw [e3]
    omega

/-- C7: the assembled context block has length bounded by the serialized
profile size plus a fixed constant (covering at most 3 retrieved memories,
each truncated to 400 characters in the CLI variant and 300 in the web
variant), independent of how many conversations the store holds.  The
hypotheses say only that the external ranking returns stored documents and
that the stored metadata strings have their usual bounded shape (ratings are
"unrated" or a digit; timestamps are ISO format). -/
theorem c7_context_block_bounded :
    (∀ (pj : Profile → String) (rank : List ConvRecord → String → List ConvRecord)
        (store : List ConvRecord) (p : Profile) (msg : String),
      (∀ r ∈ rank store msg, r ∈ store) → (∀ r ∈ store, r.rating.length ≤ 7) →
        (buildContext pj rank store p msg).length ≤ (pj p).length + 1400)
    ∧ (∀ (pj : ProfileW → String) (rank : List ConvRecord → String → List ConvRecord)
        (store : List ConvRecord) (p : ProfileW) (msg : String),
      (∀ r ∈ rank store msg, r ∈ store) → (∀ r ∈ store, r.timestamp.length ≤ 32) →
        (buildContextWeb pj rank store p msg).length ≤ (pj p).length + 1100) :=
  ⟨fun pj rank store p msg hrank hrat => buildContext_le pj rank store p msg hrank hrat,
   fun pj rank store p msg hrank hts => buildContextWeb_le pj rank store p msg hrank hts⟩

/-- Witness for C7 at a concrete one-record store. -/
theorem c7_context_block_bounded_witness :
    (∀ r ∈ (fun (s : List ConvRecord) (_ : String) => s)
        [⟨"mem_1.0", "User: hi\n\nGhost: hello", "2024-01-01T00:00:00", "5", "hi"⟩] "q",
      r ∈ [(⟨"mem_1.0", "User: hi\n\nGhost: hello", "2024-01-01T00:00:00", "5", "hi"⟩ : ConvRecord)])
    ∧ (∀ r ∈ [(⟨"mem_1.0", "User: hi\n\nGhost: hello", "2024-01-01T00:00:00", "5", "hi"⟩ : ConvRecord)],
      r.rating.length ≤ 7)
    ∧ (buildContext (fun _ => "P") (fun s _ => s)
        [⟨"mem_1.0", "User: hi\n\nGhost: hello", "2024-01-01T00:00:00", "5", "hi"⟩]
        ⟨"User", [], [], [], "adaptive", 0, "t0"⟩ "q").length
        ≤ ((fun (_ : Profile) => "P") ⟨"User", [], [], [], "adaptive", 0, "t0"⟩).length + 1400 := by
  refine ⟨by decide, by decide, ?_⟩
  exact c7_context_block_bounded.1 (fun _ => "P") (fun s _ => s)
    [⟨"mem_1.0", "User: hi\n\nGhost: hello", "2024-01-01T00:00:00", "5", "hi"⟩]
    ⟨"User", [], [], [], "adaptive", 0, "t0"⟩ "q" (by decide) (by decide)

end Ghost
